import Mathlib

/-!
Verification of the autoclip crop planner (scripts/autoclip/crop.py).

Shallow embedding conventions:
* Python int is modelled by Lean Int, Python float by Rat (exact arithmetic
  on the literals appearing in the source).
* Python int(x) truncates a float toward zero; this is pyInt below.
* Python round(x) rounds half to even; this is pyRound below.
* External collaborators (video decoder, face detector, optical-flow
  estimator, ffmpeg sink) are modelled as data or function parameters:
  a video is an Option record (none = open failure), raster frames are
  opaque ids (Nat), the detector is a function from frame id to boxes and
  the motion estimator a function from two frame ids to a magnitude field.
-/

namespace Autoclip

/-- Python int() on a float: truncation toward zero. -/
def pyInt (q : ℚ) : ℤ := if q < 0 then ⌈q⌉ else ⌊q⌋

/-- Python round() on a float: nearest integer, ties to even. -/
def pyRound (q : ℚ) : ℤ :=
  let f := ⌊q⌋
  let r := q - (f : ℚ)
  if r < 1/2 then f
  else if 1/2 < r then f + 1
  else if 2 ∣ f then f else f + 1

/-- clamp(value, min_value, max_value) from crop.py, float version. -/
def clamp (value min_value max_value : ℚ) : ℚ :=
  max min_value (min value max_value)

/-- clamp applied to Python ints stays an int; crop.py wraps it in int(). -/
def clampZ (value min_value max_value : ℤ) : ℤ :=
  max min_value (min value max_value)

/-- FaceBox = (x, y, w, h, score): pixel rectangle plus confidence. -/
structure FaceBox where
  x : ℤ
  y : ℤ
  w : ℤ
  h : ℤ
  score : ℚ
deriving DecidableEq

/-- face_area(face) = w * h. -/
def face_area (f : FaceBox) : ℤ := f.w * f.h

/-- The clamping part of the normalize_faces loop body:
x = int(clamp(x, 0, frame_width - 1)), y likewise against frame_height,
w = int(clamp(w, 1, frame_width - x)), h likewise. -/
def clampBox (frame_width frame_height : ℤ) (b : FaceBox) : FaceBox :=
  let x := clampZ b.x 0 (frame_width - 1)
  let y := clampZ b.y 0 (frame_height - 1)
  let w := clampZ b.w 1 (frame_width - x)
  let h := clampZ b.h 1 (frame_height - y)
  ⟨x, y, w, h, b.score⟩

/-- One iteration of the normalize_faces loop: drop when score < 0.5,
clamp the box, drop when the clamped area is under
frame_width * frame_height * 0.001, else keep the clamped box. -/
def normalizeOne (frame_width frame_height : ℤ) (b : FaceBox) : Option FaceBox :=
  if b.score < 1/2 then none
  else
    let nb := clampBox frame_width frame_height b
    if ((nb.w * nb.h : ℤ) : ℚ) < ((frame_width * frame_height : ℤ) : ℚ) * (1/1000) then none
    else some nb

/-- normalize_faces(faces, frame_width, frame_height): the source loop appends
the surviving clamped boxes in input order, which is exactly filterMap. -/
def normalize_faces (faces : List FaceBox) (frame_width frame_height : ℤ) :
    List FaceBox :=
  faces.filterMap (normalizeOne frame_width frame_height)

/-- Target geometry record: (target_width, target_height). -/
structure Geometry where
  targetWidth : ℤ
  targetHeight : ℤ
deriving DecidableEq

/-- Target geometry of crop_face_tracking (lines 249-258):
target_height = height; target_width = int(target_height * 9 / 16);
if target_width > width: target_width = width;
both rounded down to even; error (none) when either ends below 2. -/
def faceTargetGeometry (width height : ℤ) : Option Geometry :=
  let th0 := height
  let tw0 := pyInt ((th0 : ℚ) * 9 / 16)
  let tw1 := if width < tw0 then width else tw0
  let tw := tw1 - tw1 % 2
  let th := th0 - th0 % 2
  if tw < 2 ∨ th < 2 then none else some ⟨tw, th⟩

/-- Target geometry of crop_screen_tracking (lines 378-385): identical except
that there is no capping of target_width at the source width. -/
def screenTargetGeometry (_width height : ℤ) : Option Geometry :=
  let th0 := height
  let tw0 := pyInt ((th0 : ℚ) * 9 / 16)
  let tw := tw0 - tw0 % 2
  let th := th0 - th0 % 2
  if tw < 2 ∨ th < 2 then none else some ⟨tw, th⟩

/-- Stable insertion of one box into a list already sorted by area in
descending order: the inserted element goes after every earlier element of
equal or larger area, exactly as Python sorted(key=face_area, reverse=True)
keeps equal-area boxes in their original order. -/
def insertDesc (f : FaceBox) : List FaceBox → List FaceBox
  | [] => [f]
  | g :: rest =>
    if face_area g ≤ face_area f then f :: g :: rest
    else g :: insertDesc f rest

/-- sorted(faces, key=face_area, reverse=True): stable descending sort. -/
def sortFacesDesc : List FaceBox → List FaceBox
  | [] => []
  | f :: rest => insertDesc f (sortFacesDesc rest)

/-- min over a nonempty int list (min(...) in Python); 0 on []. -/
def listMin : List ℤ → ℤ
  | [] => 0
  | a :: rest => rest.foldl min a

/-- max over a nonempty int list (max(...) in Python); 0 on []. -/
def listMax : List ℤ → ℤ
  | [] => 0
  | a :: rest => rest.foldl max a

/-- One iteration of the scoring loop of pick_face_center (lines 176-183):
total = area_ratio - distance_ratio * 0.2 + score * 0.01, keeping the best
under strict improvement. -/
def scoreStep (frame_width frame_height : ℤ) (prev : ℚ)
    (acc : ℚ × Option ℚ) (f : FaceBox) : ℚ × Option ℚ :=
  let frame_area := frame_width * frame_height
  let center : ℚ := (f.x : ℚ) + (f.w : ℚ) / 2
  let area_ratio : ℚ := ((f.w * f.h : ℤ) : ℚ) / ((frame_area : ℤ) : ℚ)
  let distance_ratio : ℚ := |center - prev| / ((frame_width : ℤ) : ℚ)
  let total := area_ratio - distance_ratio * (2/10) + f.score * (1/100)
  if acc.1 < total then (total, some center) else acc

/-- pick_face_center (crop.py lines 144-184). The empty check, the group
heuristic over boxes whose area is at least 0.6 of the top area with span
at most 0.9 * target_width, the no-previous-center branch, and the scoring
loop with initial best_score = -1e9 and strict improvement. -/
def pick_face_center (faces : List FaceBox) (prev_center : Option ℚ)
    (frame_width frame_height target_width : ℤ) : Option ℤ :=
  match sortFacesDesc faces with
  | [] => none
  | top :: rest =>
    let fs := top :: rest
    let group_center : Option ℤ :=
      if rest = [] then none
      else
        let top_area := face_area top
        let group := fs.filter fun f =>
          decide ((top_area : ℚ) * (6/10) ≤ (face_area f : ℚ))
        if 2 ≤ group.length then
          let min_x := listMin (group.map FaceBox.x)
          let max_x := listMax (group.map fun f => f.x + f.w)
          let span := max_x - min_x
          if (span : ℚ) ≤ (target_width : ℚ) * (9/10) then
            some (pyInt (((min_x + max_x : ℤ) : ℚ) / 2))
          else none
        else none
    match group_center with
    | some c => some c
    | none =>
      match prev_center with
      | none => some (pyInt ((top.x : ℚ) + (top.w : ℚ) / 2))
      | some prev =>
        let best := fs.foldl (scoreStep frame_width frame_height prev)
          (-(10 ^ 9 : ℚ), none)
        match best.2 with
        | some c => some (pyInt c)
        | none => none

/-- update_interval = max(1, int(fps * 0.5)). -/
def update_interval (fps : ℚ) : ℤ := max 1 (pyInt (fps * (5/10)))

/-- smoothing = min(0.3, max(0.05, 5 / fps)). -/
def smoothing (fps : ℚ) : ℚ := min (3/10) (max (5/100) (5 / fps))

/-- missing_threshold = int(fps * MISSING_FACE_SECONDS) with
MISSING_FACE_SECONDS = 2.0; note int() truncation, not round(). -/
def missing_threshold (fps : ℚ) : ℤ := pyInt (fps * 2)

/-- Mutable loop state of crop_face_tracking. -/
structure FaceState where
  target_center : ℚ
  smoothed_center : ℚ
  missing : ℤ
  frame_idx : ℤ
deriving DecidableEq

/-- Initial state: smoothed_center = width / 2, target_center likewise,
missing_frames = 0, frame_idx = 0. -/
def faceInit (width : ℤ) : FaceState :=
  ⟨(width : ℚ) / 2, (width : ℚ) / 2, 0, 0⟩

/-- One iteration of the crop_face_tracking while-loop (lines 320-348),
with the detection outcome at this frame abstracted as det (the value
pick_face_center would return; ignored on non-update frames).
Returns the new state together with the final crop_x of this frame. -/
def faceStep (width tw : ℤ) (fps : ℚ) (st : FaceState) (det : Option ℤ) :
    FaceState × ℤ :=
  let ui := update_interval fps
  let tcMiss :=
    if st.frame_idx % ui = 0 then
      match det with
      | some c => (((c : ℤ) : ℚ), (0 : ℤ))
      | none =>
        let m := st.missing + ui
        (if missing_threshold fps ≤ m then ((width : ℚ) / 2)
         else st.target_center, m)
    else (st.target_center, st.missing)
  let half : ℚ := (tw : ℚ) / 2
  let tc := clamp tcMiss.1 half ((width : ℚ) - half)
  let sm := st.smoothed_center + (tc - st.smoothed_center) * smoothing fps
  let cx0 := pyRound (sm - half)
  let cx := clampZ cx0 0 (width - tw)
  (⟨tc, sm, tcMiss.2, st.frame_idx + 1⟩, cx)

/-- States after each frame of a run of the face loop, driven by a list of
per-frame detection outcomes. -/
def faceStates (width tw : ℤ) (fps : ℚ) :
    List (Option ℤ) → FaceState → List FaceState
  | [], _ => []
  | d :: ds, st =>
    let st1 := (faceStep width tw fps st d).1
    st1 :: faceStates width tw fps ds st1

/-- Final state after folding a list of detection outcomes from the
initial state. -/
def faceRun (width tw : ℤ) (fps : ℚ) (dets : List (Option ℤ)) : FaceState :=
  dets.foldl (fun st d => (faceStep width tw fps st d).1) (faceInit width)

/-- Size of the numpy slice frame[:target_height, crop_x:crop_x+target_width]
followed by the exact-dimension resize correction of lines 344-346. -/
def emitSize (width height tw th crop_x : ℤ) : ℤ × ℤ :=
  let cw := min (crop_x + tw) width - crop_x
  let ch := min th height
  if cw ≠ tw ∨ ch ≠ th then (tw, th) else (cw, ch)

/-- A decoded video: none models an open failure. Raster frames are opaque
ids; width, height, fps and the reported frame count are container
metadata. -/
structure Video where
  width : ℤ
  height : ℤ
  fps : ℚ
  reported_count : ℤ
  frames : List ℕ

/-- The tracking loop of crop_face_tracking: at frames whose index is a
multiple of update_interval the detector runs (counted) and
pick_face_center is applied to the normalized boxes with the current
smoothed_center as previous center. Returns the emitted frame sizes and
the number of detector invocations. -/
def faceLoop (detect : ℕ → List FaceBox) (width height tw th : ℤ) (fps : ℚ) :
    List ℕ → FaceState → List (ℤ × ℤ) × ℕ
  | [], _ => ([], 0)
  | f :: rest, st =>
    let isUpd := st.frame_idx % update_interval fps = 0
    let det : Option ℤ :=
      if isUpd then
        pick_face_center (normalize_faces (detect f) width height)
          (some st.smoothed_center) width height tw
      else none
    let out := faceStep width tw fps st det
    let tail := faceLoop detect width height tw th fps rest out.1
    (emitSize width height tw th out.2 :: tail.1,
     (if isUpd then 1 else 0) + tail.2)

/-- crop_face_tracking as a plan: open failure and dimension errors are
Except errors; the result is the list of emitted frame sizes plus the
number of Face Detector invocations. When width <= target_width the
passthrough branch (lines 293-308) resizes every decoded frame to the
exact target size without ever constructing the detector. -/
def crop_face_tracking_plan (detect : ℕ → List FaceBox) (video : Option Video) :
    Except String (List (ℤ × ℤ) × ℕ) :=
  match video with
  | none => .error "Unable to open video for face crop."
  | some v =>
    if v.width < 2 ∨ v.height < 2 then .error "Invalid video dimensions"
    else
      match faceTargetGeometry v.width v.height with
      | none => .error "Invalid crop size"
      | some g =>
        if v.width ≤ g.targetWidth then
          .ok ((v.frames.map fun _ => (g.targetWidth, g.targetHeight)), 0)
        else
          .ok (faceLoop detect v.width v.height g.targetWidth g.targetHeight
                v.fps v.frames (faceInit v.width))

/-- Masked column weight of one row of the motion magnitude field:
magnitude kept only where it exceeds 2.0 (significant motion). The numpy
col_motion sums these down each column; summing rows of these masked
values gives the same totals. -/
def rowMaskedSum (row : List ℚ) : ℚ :=
  (row.map fun p => if 2 < p then p else 0).sum

/-- Column-index-weighted masked sum of one row: contribution of this row
to the numerator of np.average(np.arange(scaled_width), weights=col_motion). -/
def rowWeightedSum (row : List ℚ) : ℚ :=
  (row.enum.map fun jp => if 2 < jp.2 then (jp.1 : ℚ) * jp.2 else 0).sum

/-- Total significant motion: np.sum(col_motion). -/
def screenTotalMotion (mag : List (List ℚ)) : ℚ :=
  (mag.map rowMaskedSum).sum

/-- motion_x = int(np.average(np.arange(scaled_width), weights=col_motion)). -/
def screenMotionX (mag : List (List ℚ)) : ℤ :=
  pyInt ((mag.map rowWeightedSum).sum / screenTotalMotion mag)

/-- target_x = max(0, min(motion_x - target_width // 2,
scaled_width - target_width)). -/
def screenTargetX (scaled_width target_width : ℤ) (mag : List (List ℚ)) : ℤ :=
  max 0 (min (screenMotionX mag - Int.fdiv target_width 2)
    (scaled_width - target_width))

/-- The motion-update block of crop_screen_tracking (lines 450-465): when a
pixel of the magnitude field exceeds 2.0 and the masked column sum is
positive, smoothed_x becomes int(0.9 * smoothed_x + 0.1 * target_x);
otherwise it is left unchanged. -/
def screenMotionUpdate (scaled_width target_width : ℤ) (s : ℤ)
    (mag : List (List ℚ)) : ℤ :=
  if mag.any fun row => row.any fun p => decide (2 < p) then
    if 0 < screenTotalMotion mag then
      pyInt ((9/10) * (s : ℚ) + (1/10) * (screenTargetX scaled_width target_width mag : ℚ))
    else s
  else s

/-- Mutable loop state of crop_screen_tracking. -/
structure ScreenState where
  smoothed_x : ℤ
  prev_gray : Option ℕ
  frame_idx : ℤ
deriving DecidableEq

/-- One iteration of the crop_screen_tracking while-loop: on update frames
the previous downscaled luma (if any) and the current one are given to the
Motion Estimator, modelled by the estimate parameter. -/
def screenStep (estimate : ℕ → ℕ → List (List ℚ)) (scaled_width target_width : ℤ)
    (ui : ℤ) (st : ScreenState) (f : ℕ) : ScreenState :=
  let sp :=
    if st.frame_idx % ui = 0 then
      match st.prev_gray with
      | some p => (screenMotionUpdate scaled_width target_width st.smoothed_x
          (estimate p f), some f)
      | none => (st.smoothed_x, some f)
    else (st.smoothed_x, st.prev_gray)
  ⟨sp.1, sp.2, st.frame_idx + 1⟩

/-- States after each frame of the screen loop, honoring the early stop of
lines 487-488: when the reported frame count is nonzero and frame_idx has
reached it after the increment, the loop breaks. -/
def screenStates (estimate : ℕ → ℕ → List (List ℚ))
    (scaled_width target_width ui reported : ℤ) :
    List ℕ → ScreenState → List ScreenState
  | [], _ => []
  | f :: rest, st =>
    let st1 := screenStep estimate scaled_width target_width ui st f
    if reported ≠ 0 ∧ reported ≤ st1.frame_idx then [st1]
    else st1 :: screenStates estimate scaled_width target_width ui reported rest st1

/-- Scaled geometry of crop_screen_tracking (lines 391-398):
target_display_width = int(width * 0.67), scale maps it onto target_width,
recomputed from the height ratio when the scaled height overshoots. -/
def screenScaledGeometry (width height tw th : ℤ) : ℤ × ℤ :=
  let tdw := pyInt ((width : ℚ) * (67/100))
  let scale : ℚ := (tw : ℚ) / (tdw : ℚ)
  let sw := pyInt ((width : ℚ) * scale)
  let sh := pyInt ((height : ℚ) * scale)
  if th < sh then
    let scale2 : ℚ := (th : ℚ) / (height : ℚ)
    (pyInt ((width : ℚ) * scale2), pyInt ((height : ℚ) * scale2))
  else (sw, sh)

/-- Emitted size of one screen-mode frame: horizontal slice of the resized
frame at the clamped crop position, vertical letterbox or top-crop, then
the exact-dimension resize correction of lines 481-482. -/
def screenEmit (sw sh tw th cx : ℤ) : ℤ × ℤ :=
  let cw := min (cx + tw) sw - cx
  let out := if sh < th then (tw, th) else if th < sh then (cw, th) else (cw, sh)
  if out.1 ≠ tw ∨ out.2 ≠ th then (tw, th) else out

/-- crop_screen_tracking as a plan, returning the emitted frame sizes. -/
def crop_screen_tracking_plan (estimate : ℕ → ℕ → List (List ℚ))
    (video : Option Video) : Except String (List (ℤ × ℤ)) :=
  match video with
  | none => .error "Unable to open video for screen crop."
  | some v =>
    if v.width < 2 ∨ v.height < 2 then .error "Invalid video dimensions"
    else
      match screenTargetGeometry v.width v.height with
      | none => .error "Invalid crop size"
      | some g =>
        let swsh := screenScaledGeometry v.width v.height g.targetWidth g.targetHeight
        let ui := max 1 (pyInt v.fps)
        let sts := screenStates estimate swsh.1 g.targetWidth ui v.reported_count
          v.frames ⟨0, none, 0⟩
        .ok (sts.map fun st =>
          screenEmit swsh.1 swsh.2 g.targetWidth g.targetHeight
            (clampZ st.smoothed_x 0 (swsh.1 - g.targetWidth)))

/-- Center of the largest box after the in-place descending area sort in
detect_face_centers: int(faces[0][0] + faces[0][2] / 2). -/
def best_center (faces : List FaceBox) : Option ℤ :=
  match sortFacesDesc faces with
  | [] => none
  | best :: _ => some (pyInt ((best.x : ℚ) + (best.w : ℚ) / 2))

/-- np.linspace(0, total - 1, count, dtype=int): evenly spaced samples,
truncated to int. -/
def sampleIndices (total count : ℤ) : List ℤ :=
  (List.range count.toNat).map fun i =>
    if count = 1 then 0
    else pyInt ((i : ℚ) * ((total - 1 : ℤ) : ℚ) / ((count - 1 : ℤ) : ℚ))

/-- detect_face_centers (lines 187-231): returns [] when the video cannot
be opened; otherwise samples up to max_samples frames (linspace over the
reported count when positive, else the first frames sequentially) and
collects the best-box center of every sample with a usable face. -/
def detect_face_centers (detect : ℕ → List FaceBox) (video : Option Video)
    (max_samples : ℤ) : List ℤ :=
  match video with
  | none => []
  | some v =>
    let total := v.reported_count
    if 0 < total then
      let cnt := min max_samples total
      (sampleIndices total cnt).foldl
        (fun centers idx =>
          if max_samples ≤ (centers.length : ℤ) then centers
          else
            match v.frames.get? idx.toNat with
            | none => centers
            | some f =>
              match best_center (normalize_faces (detect f) v.width v.height) with
              | none => centers
              | some c => centers ++ [c]) []
    else
      (v.frames.take max_samples.toNat).foldl
        (fun centers f =>
          match best_center (normalize_faces (detect f) v.width v.height) with
          | none => centers
          | some c => centers ++ [c]) []

/-- main (lines 502-521): in auto mode the Mode Selector picks face mode
exactly when detect_face_centers returns a nonempty list; then the chosen
planner runs. The Except error carries the planner failure message. -/
def pyMain (detect : ℕ → List FaceBox) (estimate : ℕ → ℕ → List (List ℚ))
    (modeArg : String) (video : Option Video) : Except String (List (ℤ × ℤ)) :=
  let mode := if modeArg = "auto" then
      (if detect_face_centers detect video 12 ≠ [] then "face" else "screen")
    else modeArg
  if mode = "face" then
    match crop_face_tracking_plan detect video with
    | .ok out => .ok out.1
    | .error e => .error e
  else crop_screen_tracking_plan estimate video

/-! ### Helper lemmas -/

theorem pyInt_of_nonneg {q : ℚ} (h : 0 ≤ q) : pyInt q = ⌊q⌋ := by
  unfold pyInt
  rw [if_neg (not_lt.mpr h)]

theorem one_le_pyInt_nine_sixteenths {h : ℤ} (hh : 2 ≤ h) :
    1 ≤ pyInt ((h : ℚ) * 9 / 16) := by
  have h2 : (2 : ℚ) ≤ (h : ℚ) := by exact_mod_cast hh
  have h0 : (0 : ℚ) ≤ (h : ℚ) * 9 / 16 := by linarith
  rw [pyInt_of_nonneg h0, Int.le_floor]
  push_cast
  linarith

/-! ### C1: target geometry of the two planners -/

/-- Properties of the face-planner target geometry at source size (w, h). -/
def faceGeomProp (w h : ℤ) : Prop :=
  ∀ g, faceTargetGeometry w h = some g →
    g.targetWidth % 2 = 0 ∧ g.targetHeight % 2 = 0 ∧
    2 ≤ g.targetWidth ∧ 2 ≤ g.targetHeight ∧
    g.targetWidth ≤ w ∧ g.targetHeight ≤ h ∧
    g.targetWidth =
      min (pyInt ((h : ℚ) * 9 / 16)) w - min (pyInt ((h : ℚ) * 9 / 16)) w % 2 ∧
    g.targetHeight = h - h % 2

/-- Properties of the screen-planner target geometry at source size (w, h):
the width is never capped at the source width. -/
def screenGeomProp (w h : ℤ) : Prop :=
  ∀ g, screenTargetGeometry w h = some g →
    g.targetWidth % 2 = 0 ∧ g.targetHeight % 2 = 0 ∧
    2 ≤ g.targetWidth ∧ 2 ≤ g.targetHeight ∧ g.targetHeight ≤ h ∧
    g.targetWidth = pyInt ((h : ℚ) * 9 / 16) - pyInt ((h : ℚ) * 9 / 16) % 2 ∧
    g.targetHeight = h - h % 2

/-- C1 (corrected): for any source size with width >= 2 and height >= 2, the
face planner computes target_width = floor(height * 9 / 16) capped at the
source width then rounded down to even, and target_height = height rounded
down to even; both are even, at least 2 (else the fatal Invalid-crop-size
error), and at most the corresponding source dimension. The screen planner
computes the same target_height but never caps target_width at the source
width: its target_width is floor(height * 9 / 16) rounded down to even,
still even and at least 2, but possibly larger than the source width. -/
theorem c1_target_geometry (w h : ℤ) (hw : 2 ≤ w) (hh : 2 ≤ h) :
    faceGeomProp w h ∧ screenGeomProp w h := by
  have ht : 1 ≤ pyInt ((h : ℚ) * 9 / 16) := one_le_pyInt_nine_sixteenths hh
  constructor
  · intro g hg
    simp only [faceTargetGeometry] at hg
    set t := pyInt ((h : ℚ) * 9 / 16) with htdef
    by_cases hcap : w < t
    · rw [if_pos hcap] at hg
      split at hg
      · exact absurd hg (by simp)
      · rw [Option.some.injEq] at hg
        subst hg
        dsimp only
        omega
    · rw [if_neg hcap] at hg
      split at hg
      · exact absurd hg (by simp)
      · rw [Option.some.injEq] at hg
        subst hg
        dsimp only
        omega
  · intro g hg
    simp only [screenTargetGeometry] at hg
    set t := pyInt ((h : ℚ) * 9 / 16) with htdef
    split at hg
    · exact absurd hg (by simp)
    · rw [Option.some.injEq] at hg
      subst hg
      dsimp only
      omega

/-- Witness for C1 at source size 100 x 200. -/
theorem c1_target_geometry_witness :
    (2 : ℤ) ≤ 100 ∧ (2 : ℤ) ≤ 200 ∧
      (faceGeomProp 100 200 ∧ screenGeomProp 100 200) :=
  ⟨by norm_num, by norm_num, c1_target_geometry 100 200 (by norm_num) (by norm_num)⟩

/-- Counterexample to C1 as stated: at source size 100 x 200 the screen
planner computes target_width = 112, which exceeds the source width, so
the computed width is not capped at the source width and not below the
corresponding source dimension. -/
theorem c1_counterexample :
    screenTargetGeometry 100 200 = some ⟨112, 200⟩ ∧ ¬((112 : ℤ) ≤ 100) := by
  constructor
  · have : pyInt ((200 : ℤ) * 9 / 16 : ℚ) = 112 := by
      rw [pyInt_of_nonneg (by norm_num)]
      norm_num
    unfold screenTargetGeometry
    norm_num [pyInt_of_nonneg]
  · norm_num

/-! ### C5: normalize_faces -/

theorem normalizeOne_eq_clampBox {fw fh : ℤ} {a b : FaceBox}
    (h : normalizeOne fw fh a = some b) : b = clampBox fw fh a := by
  simp only [normalizeOne] at h
  split at h
  · exact absurd h (by simp)
  · split at h
    · exact absurd h (by simp)
    · rw [Option.some.injEq] at h
      exact h.symm

theorem normalizeOne_some_props {fw fh : ℤ} {a b : FaceBox}
    (h1 : 1 ≤ fw) (h2 : 1 ≤ fh) (h : normalizeOne fw fh a = some b) :
    (1/2 : ℚ) ≤ b.score ∧ 0 ≤ b.x ∧ b.x + b.w ≤ fw ∧ 0 ≤ b.y ∧ b.y + b.h ≤ fh ∧
      1 ≤ b.w ∧ 1 ≤ b.h ∧
      ((fw * fh : ℤ) : ℚ) * (1/1000) ≤ ((b.w * b.h : ℤ) : ℚ) := by
  have hb := normalizeOne_eq_clampBox h
  simp only [normalizeOne] at h
  split at h
  · exact absurd h (by simp)
  · rename_i hscore
    split at h
    · exact absurd h (by simp)
    · rename_i harea
      subst hb
      refine ⟨?_, ?_, ?_, ?_, ?_, ?_, ?_, ?_⟩
      · simpa [clampBox] using not_lt.mp hscore
      · simp only [clampBox, clampZ]
        omega
      · simp only [clampBox, clampZ]
        omega
      · simp only [clampBox, clampZ]
        omega
      · simp only [clampBox, clampZ]
        omega
      · simp only [clampBox, clampZ]
        omega
      · simp only [clampBox, clampZ]
        omega
      · exact not_lt.mp harea

/-- C5: normalize_faces keeps exactly the boxes with score at least 0.5
whose clamped version has area at least 0.001 of the frame area; every
returned box lies inside the frame, the output is an order-preserving
subsequence of the clamped input boxes, and membership is characterized by
the per-box filter, so every other box is dropped. -/
theorem c5_normalize_faces (faces : List FaceBox) (fw fh : ℤ)
    (h1 : 1 ≤ fw) (h2 : 1 ≤ fh) :
    (∀ b ∈ normalize_faces faces fw fh,
      (1/2 : ℚ) ≤ b.score ∧ 0 ≤ b.x ∧ b.x + b.w ≤ fw ∧ 0 ≤ b.y ∧ b.y + b.h ≤ fh ∧
        1 ≤ b.w ∧ 1 ≤ b.h ∧
        ((fw * fh : ℤ) : ℚ) * (1/1000) ≤ ((b.w * b.h : ℤ) : ℚ)) ∧
    List.Sublist (normalize_faces faces fw fh) (faces.map (clampBox fw fh)) ∧
    (∀ b, b ∈ normalize_faces faces fw fh ↔
      ∃ a ∈ faces, normalizeOne fw fh a = some b) := by
  refine ⟨?_, ?_, ?_⟩
  · intro b hb
    obtain ⟨a, _, ha⟩ := List.mem_filterMap.mp hb
    exact normalizeOne_some_props h1 h2 ha
  · induction faces with
    | nil => simp [normalize_faces]
    | cons a rest ih =>
      simp only [normalize_faces, List.filterMap_cons, List.map_cons]
      cases hone : normalizeOne fw fh a with
      | none => exact (ih).cons _
      | some nb =>
        rw [normalizeOne_eq_clampBox hone]
        exact (ih).cons₂ _
  · intro b
    exact List.mem_filterMap

/-- Witness for C5 on a concrete input: one oversized box (clamped into the
frame and kept) and one low-score box (dropped). -/
theorem c5_normalize_faces_witness :
    (1 : ℤ) ≤ 50 ∧ (1 : ℤ) ≤ 40 ∧
      ((∀ b ∈ normalize_faces [⟨-5, -5, 100, 100, 1⟩, ⟨0, 0, 1, 1, 1/4⟩] 50 40,
        (1/2 : ℚ) ≤ b.score ∧ 0 ≤ b.x ∧ b.x + b.w ≤ 50 ∧ 0 ≤ b.y ∧ b.y + b.h ≤ 40 ∧
          1 ≤ b.w ∧ 1 ≤ b.h ∧
          ((50 * 40 : ℤ) : ℚ) * (1/1000) ≤ ((b.w * b.h : ℤ) : ℚ)) ∧
      List.Sublist (normalize_faces [⟨-5, -5, 100, 100, 1⟩, ⟨0, 0, 1, 1, 1/4⟩] 50 40)
        ([⟨-5, -5, 100, 100, 1⟩, ⟨0, 0, 1, 1, 1/4⟩].map (clampBox 50 40)) ∧
      (∀ b, b ∈ normalize_faces [⟨-5, -5, 100, 100, 1⟩, ⟨0, 0, 1, 1, 1/4⟩] 50 40 ↔
        ∃ a ∈ [(⟨-5, -5, 100, 100, 1⟩ : FaceBox), ⟨0, 0, 1, 1, 1/4⟩],
          normalizeOne 50 40 a = some b)) :=
  ⟨by norm_num, by norm_num,
    c5_normalize_faces [⟨-5, -5, 100, 100, 1⟩, ⟨0, 0, 1, 1, 1/4⟩] 50 40
      (by norm_num) (by norm_num)⟩

/-! ### Sorting lemmas shared by C3 and C4 -/

theorem insertDesc_perm (f : FaceBox) (l : List FaceBox) :
    (insertDesc f l).Perm (f :: l) := by
  induction l with
  | nil => simp [insertDesc]
  | cons g rest ih =>
    simp only [insertDesc]
    split
    · exact List.Perm.refl _
    · exact (ih.cons g).trans (List.Perm.swap f g rest)

theorem sortFacesDesc_perm (l : List FaceBox) :
    (sortFacesDesc l).Perm l := by
  induction l with
  | nil => simp [sortFacesDesc]
  | cons f rest ih =>
    exact (insertDesc_perm f (sortFacesDesc rest)).trans (ih.cons f)

theorem sortFacesDesc_eq_nil_iff (l : List FaceBox) :
    sortFacesDesc l = [] ↔ l = [] := by
  constructor
  · intro h
    have := (sortFacesDesc_perm l).length_eq
    rw [h] at this
    exact List.length_eq_zero.mp this.symm
  · intro h
    subst h
    rfl

/-! ### C3: pick_face_center is none iff the box list is empty -/

theorem scoreStep_total_gt {fw fh : ℤ} {p : ℚ} {f : FaceBox}
    (hfw : 1 ≤ fw) (hfh : 1 ≤ fh)
    (hx : 0 ≤ f.x) (hxw : f.x + f.w ≤ fw) (hw : 1 ≤ f.w) (hh : 1 ≤ f.h)
    (hs : 0 ≤ f.score) (hp0 : 0 ≤ p) (hpw : p ≤ (fw : ℚ)) :
    -(10 ^ 9 : ℚ) <
      ((f.w * f.h : ℤ) : ℚ) / ((fw * fh : ℤ) : ℚ) -
        |((f.x : ℚ) + (f.w : ℚ) / 2) - p| / ((fw : ℤ) : ℚ) * (2/10) +
        f.score * (1/100) := by
  have hfwQ : (1 : ℚ) ≤ (fw : ℚ) := by exact_mod_cast hfw
  have hfhQ : (1 : ℚ) ≤ (fh : ℚ) := by exact_mod_cast hfh
  have hxQ : (0 : ℚ) ≤ (f.x : ℚ) := by exact_mod_cast hx
  have hwQ : (1 : ℚ) ≤ (f.w : ℚ) := by exact_mod_cast hw
  have hxwQ : (f.x : ℚ) + (f.w : ℚ) ≤ (fw : ℚ) := by exact_mod_cast hxw
  have harea : (0 : ℚ) ≤ ((f.w * f.h : ℤ) : ℚ) / ((fw * fh : ℤ) : ℚ) := by
    apply div_nonneg
    · have : (1 : ℚ) ≤ (f.h : ℚ) := by exact_mod_cast hh
      push_cast
      nlinarith
    · push_cast
      nlinarith
  have habs : |((f.x : ℚ) + (f.w : ℚ) / 2) - p| ≤ (fw : ℚ) := by
    rw [abs_le]
    constructor <;> nlinarith
  have hfwpos : (0 : ℚ) < ((fw : ℤ) : ℚ) := by
    have h0 : (0 : ℤ) < fw := by omega
    exact_mod_cast h0
  have hdist : |((f.x : ℚ) + (f.w : ℚ) / 2) - p| / ((fw : ℤ) : ℚ) ≤ 1 := by
    rw [div_le_one hfwpos]
    exact_mod_cast habs
  have habs0 : (0 : ℚ) ≤ |((f.x : ℚ) + (f.w : ℚ) / 2) - p| / ((fw : ℤ) : ℚ) := by
    apply div_nonneg (abs_nonneg _)
    exact_mod_cast le_trans zero_le_one hfwQ
  nlinarith

theorem scoreStep_foldl_isSome (fw fh : ℤ) (p : ℚ) (l : List FaceBox) :
    ∀ acc : ℚ × Option ℚ, acc.2.isSome →
      ((l.foldl (scoreStep fw fh p) acc).2).isSome := by
  induction l with
  | nil => intro acc h; simpa using h
  | cons f rest ih =>
    intro acc h
    rw [List.foldl_cons]
    apply ih
    simp only [scoreStep]
    split
    · simp
    · exact h

/-- C3 (corrected): with every box lying inside the frame with positive
size and nonnegative score (as the boxes returned by normalize_faces do),
and the previous center (when present) inside the frame, pick_face_center
returns none exactly on the empty box list. Without the in-frame bound the
forward direction fails: a box far outside the frame can score below the
initial best score -1e9 and be rejected. -/
theorem c3_pick_none_iff (faces : List FaceBox) (popt : Option ℚ)
    (fw fh tw : ℤ) (hfw : 1 ≤ fw) (hfh : 1 ≤ fh)
    (hboxes : ∀ b ∈ faces,
      0 ≤ b.x ∧ b.x + b.w ≤ fw ∧ 1 ≤ b.w ∧ 1 ≤ b.h ∧ 0 ≤ b.score)
    (hprev : ∀ p ∈ popt, 0 ≤ p ∧ p ≤ (fw : ℚ)) :
    pick_face_center faces popt fw fh tw = none ↔ faces = [] := by
  constructor
  · intro hnone
    by_contra hne
    obtain ⟨top, rest, hE⟩ : ∃ top rest, sortFacesDesc faces = top :: rest := by
      cases hS : sortFacesDesc faces with
      | nil => exact absurd ((sortFacesDesc_eq_nil_iff faces).mp hS) hne
      | cons a l => exact ⟨a, l, rfl⟩
    rw [pick_face_center, hE] at hnone
    revert hnone
    dsimp only
    split
    · simp
    · rename_i hgc
      cases popt with
      | none => simp
      | some p =>
        have htop : top ∈ faces := by
          refine (sortFacesDesc_perm faces).mem_iff.mp ?_
          rw [hE]
          exact List.mem_cons_self _ _
        obtain ⟨hx, hxw, hw, hh, hs⟩ := hboxes top htop
        obtain ⟨hp0, hpw⟩ := hprev p rfl
        have hgt := scoreStep_total_gt hfw hfh hx hxw hw hh hs hp0 hpw
        have hfirst : (scoreStep fw fh p (-(10 ^ 9 : ℚ), none) top).2.isSome := by
          simp only [scoreStep]
          rw [if_pos]
          · simp
          · simpa using hgt
        have hsome := scoreStep_foldl_isSome fw fh p rest
          (scoreStep fw fh p (-(10 ^ 9 : ℚ), none) top) hfirst
        dsimp only
        rw [List.foldl_cons]
        obtain ⟨c, hc⟩ := Option.isSome_iff_exists.mp hsome
        rw [hc]
        simp
  · intro h
    subst h
    rfl

/-- Witness for C3 with a nonempty in-frame box list and a previous
center. -/
theorem c3_pick_none_iff_witness :
    (1 : ℤ) ≤ 100 ∧ (1 : ℤ) ≤ 60 ∧
      (pick_face_center [⟨10, 5, 20, 20, 9/10⟩] (some 30) 100 60 50 = none ↔
        [(⟨10, 5, 20, 20, 9/10⟩ : FaceBox)] = []) :=
  ⟨by norm_num, by norm_num,
    c3_pick_none_iff [⟨10, 5, 20, 20, 9/10⟩] (some 30) 100 60 50
      (by norm_num) (by norm_num)
      (by intro b hb; simp at hb; subst hb; norm_num)
      (by intro p hp; simp at hp; subst hp; norm_num)⟩

/-- Counterexample to C3 as stated: a single box lying far outside a 2 x 2
frame scores below the initial best score -1e9, so pick_face_center
returns none on a nonempty box list. -/
theorem c3_counterexample :
    pick_face_center [⟨10 ^ 15, 0, 1, 1, 1⟩] (some 0) 2 2 2 = none ∧
      [(⟨10 ^ 15, 0, 1, 1, 1⟩ : FaceBox)] ≠ [] := by
  constructor
  · simp [pick_face_center, sortFacesDesc, insertDesc, face_area, pyInt, scoreStep]
    norm_num [abs_of_nonneg]
  · simp

/-! ### C4: two equal-size boxes within the group span -/

/-- C4 (corrected): with two boxes of equal (nonnegative) area whose
combined span is at most 0.9 * target_width, pick_face_center returns the
midpoint of the combined span truncated to an integer by int(), namely
int((min_x + max_x) / 2) — not the exact midpoint, which is a half-integer
whenever min_x + max_x is odd. -/
theorem c4_group_midpoint (b1 b2 : FaceBox) (popt : Option ℚ) (fw fh tw : ℤ)
    (harea : face_area b1 = face_area b2) (hpos : 0 ≤ face_area b1)
    (hspan : ((max (b1.x + b1.w) (b2.x + b2.w) - min b1.x b2.x : ℤ) : ℚ) ≤
      (tw : ℚ) * (9/10)) :
    pick_face_center [b1, b2] popt fw fh tw =
      some (pyInt (((min b1.x b2.x + max (b1.x + b1.w) (b2.x + b2.w) : ℤ) : ℚ) / 2)) := by
  have hsort : sortFacesDesc [b1, b2] = [b1, b2] := by
    simp [sortFacesDesc, insertDesc, harea.ge]
  have hposQ : (0 : ℚ) ≤ ((face_area b1 : ℤ) : ℚ) := by exact_mod_cast hpos
  have hc1 : ((face_area b1 : ℤ) : ℚ) * (6/10) ≤ ((face_area b1 : ℤ) : ℚ) := by
    linarith
  have hc2 : ((face_area b1 : ℤ) : ℚ) * (6/10) ≤ ((face_area b2 : ℤ) : ℚ) := by
    rw [← harea]
    exact hc1
  have hfilter :
      List.filter
        (fun f => decide (((face_area b1 : ℤ) : ℚ) * (6/10) ≤ ((face_area f : ℤ) : ℚ)))
        [b1, b2] = [b1, b2] := by
    rw [List.filter_cons_of_pos, List.filter_cons_of_pos, List.filter_nil]
    · simpa using hc2
    · simpa using hc1
  simp only [pick_face_center, hsort]
  rw [hfilter]
  simp only [List.length_cons, List.length_nil, listMin, listMax, List.map_cons,
    List.map_nil, List.foldl_cons, List.foldl_nil]
  rw [if_neg (by simp), if_pos (by norm_num), if_pos hspan]

/-- Witness for C4: two 10 x 10 boxes at x = 0 and x = 30 in a 200 x 100
frame with target width 100: span 40 is within 90 and the returned center
is int((0 + 40) / 2) = 20. -/
theorem c4_group_midpoint_witness :
    face_area (⟨0, 0, 10, 10, 1⟩ : FaceBox) = face_area (⟨30, 20, 10, 10, 1⟩ : FaceBox) ∧
      0 ≤ face_area (⟨0, 0, 10, 10, 1⟩ : FaceBox) ∧
      ((max (0 + 10) (30 + 10) - min 0 30 : ℤ) : ℚ) ≤ (100 : ℚ) * (9/10) ∧
      pick_face_center [⟨0, 0, 10, 10, 1⟩, ⟨30, 20, 10, 10, 1⟩] none 200 100 100 =
        some (pyInt (((min 0 30 + max (0 + 10) (30 + 10) : ℤ) : ℚ) / 2)) :=
  ⟨by norm_num [face_area], by norm_num [face_area], by norm_num,
    c4_group_midpoint ⟨0, 0, 10, 10, 1⟩ ⟨30, 20, 10, 10, 1⟩ none 200 100 100
      (by norm_num [face_area]) (by norm_num [face_area]) (by norm_num)⟩

/-- Counterexample to C4 as stated: two equal 1 x 1 boxes at x = 0 and
x = 2 give a combined span [0, 3] with exact midpoint 3/2, but the
function returns the integer 1, not the exact midpoint. -/
theorem c4_counterexample :
    pick_face_center [⟨0, 0, 1, 1, 1⟩, ⟨2, 0, 1, 1, 1⟩] none 100 100 50 =
        some 1 ∧
      ((1 : ℚ) ≠ ((0 : ℚ) + 3) / 2) := by
  constructor
  · simp [pick_face_center, sortFacesDesc, insertDesc, face_area, listMin,
      listMax, pyInt]
    norm_num
  · norm_num

/-! ### C2: the smoothed and target centers stay inside the pan range -/

theorem le_clamp {v lo hi : ℚ} : lo ≤ clamp v lo hi :=
  le_max_left _ _

theorem clamp_le {v lo hi : ℚ} (h : lo ≤ hi) : clamp v lo hi ≤ hi :=
  max_le h (min_le_right _ _)

theorem clamp_eq_self {v lo hi : ℚ} (h1 : lo ≤ v) (h2 : v ≤ hi) :
    clamp v lo hi = v := by
  unfold clamp
  rw [min_eq_left h2, max_eq_right h1]

theorem smoothing_mem (fps : ℚ) :
    1/20 ≤ smoothing fps ∧ smoothing fps ≤ 3/10 := by
  unfold smoothing
  exact ⟨le_min (by norm_num) (le_trans (by norm_num) (le_max_left _ _)),
    min_le_left _ _⟩

theorem convex_mem {lo hi s t a : ℚ} (hs1 : lo ≤ s) (hs2 : s ≤ hi)
    (ht1 : lo ≤ t) (ht2 : t ≤ hi) (ha1 : 0 ≤ a) (ha2 : a ≤ 1) :
    lo ≤ s + (t - s) * a ∧ s + (t - s) * a ≤ hi := by
  constructor <;> nlinarith

/-- The PlannerState invariant of the face planner: both centers lie in
[target_width / 2, frame_width - target_width / 2]. -/
def FaceInv (width tw : ℤ) (st : FaceState) : Prop :=
  (tw : ℚ) / 2 ≤ st.target_center ∧
    st.target_center ≤ (width : ℚ) - (tw : ℚ) / 2 ∧
    (tw : ℚ) / 2 ≤ st.smoothed_center ∧
    st.smoothed_center ≤ (width : ℚ) - (tw : ℚ) / 2

theorem faceStep_preserves_inv {width tw : ℤ} (fps : ℚ) {st : FaceState}
    (det : Option ℤ) (hlt : tw < width) (hinv : FaceInv width tw st) :
    FaceInv width tw (faceStep width tw fps st det).1 := by
  have htwQ : (tw : ℚ) ≤ (width : ℚ) := by exact_mod_cast hlt.le
  have hle : (tw : ℚ) / 2 ≤ (width : ℚ) - (tw : ℚ) / 2 := by linarith
  obtain ⟨ha1, ha2⟩ := smoothing_mem fps
  obtain ⟨-, -, hs1, hs2⟩ := hinv
  unfold faceStep
  dsimp only
  have ht1 : (tw : ℚ) / 2 ≤ clamp (if st.frame_idx % update_interval fps = 0 then
      match det with
      | some c => (((c : ℤ) : ℚ), (0 : ℤ))
      | none =>
        (if missing_threshold fps ≤ st.missing + update_interval fps then
          ((width : ℚ) / 2) else st.target_center,
            st.missing + update_interval fps)
    else (st.target_center, st.missing)).1 ((tw : ℚ) / 2) ((width : ℚ) - (tw : ℚ) / 2) :=
    le_clamp
  refine ⟨le_clamp, clamp_le hle, ?_, ?_⟩
  · exact (convex_mem hs1 hs2 le_clamp (clamp_le hle) (by linarith) (by linarith)).1
  · exact (convex_mem hs1 hs2 le_clamp (clamp_le hle) (by linarith) (by linarith)).2

theorem faceStates_inv_aux (width tw : ℤ) (fps : ℚ) (hlt : tw < width) :
    ∀ (dets : List (Option ℤ)) (st0 : FaceState), FaceInv width tw st0 →
      ∀ st ∈ faceStates width tw fps dets st0, FaceInv width tw st := by
  intro dets
  induction dets with
  | nil =>
    intro st0 h0 st hst
    simp [faceStates] at hst
  | cons d ds ih =>
    intro st0 h0 st hst
    simp only [faceStates] at hst
    rcases List.mem_cons.mp hst with h | h
    · subst h
      exact faceStep_preserves_inv fps d hlt h0
    · exact ih _ (faceStep_preserves_inv fps d hlt h0) st h

/-- C2: for every sequence of per-frame detection outcomes, every state of
the face-planner run keeps target_center and smoothed_center inside
[target_width / 2, frame_width - target_width / 2], provided the frame is
wider than the target (the smoothing factor is clamped to [0.05, 0.3] by
construction). -/
theorem c2_center_invariant (width tw : ℤ) (fps : ℚ)
    (dets : List (Option ℤ)) (hlt : tw < width) :
    ∀ st ∈ faceStates width tw fps dets (faceInit width), FaceInv width tw st := by
  apply faceStates_inv_aux width tw fps hlt
  have htwQ : (tw : ℚ) ≤ (width : ℚ) := by exact_mod_cast hlt.le
  refine ⟨?_, ?_, ?_, ?_⟩ <;> simp only [faceInit] <;> linarith

/-- Witness for C2 at width 100, target width 50, 30 fps, with a detection
sequence that jumps to the right edge and then loses the subject. -/
theorem c2_center_invariant_witness :
    (50 : ℤ) < 100 ∧
      ∀ st ∈ faceStates 100 50 30 [some 90, none, some (-5)] (faceInit 100),
        FaceInv 100 50 st :=
  ⟨by norm_num, c2_center_invariant 100 50 30 [some 90, none, some (-5)] (by norm_num)⟩

/-! ### C6: missing-detection fail-safe -/

/-- C6 (corrected): at an update frame with no detected center, the missing
counter grows by update_interval, and as soon as it reaches
missing_threshold = int(fps * 2.0) — truncation, not round(fps * 2.0) —
the target center is set to exactly frame_width / 2 at that update. -/
theorem c6_missing_failsafe (width tw : ℤ) (fps : ℚ) (st : FaceState)
    (hupd : st.frame_idx % update_interval fps = 0) (htw : tw ≤ width)
    (htrig : missing_threshold fps ≤ st.missing + update_interval fps) :
    (faceStep width tw fps st none).1.missing =
        st.missing + update_interval fps ∧
      (faceStep width tw fps st none).1.target_center = (width : ℚ) / 2 ∧
      missing_threshold fps = pyInt (fps * 2) := by
  have htwQ : (tw : ℚ) ≤ (width : ℚ) := by exact_mod_cast htw
  simp only [faceStep]
  rw [if_pos hupd]
  dsimp only
  rw [if_pos htrig]
  refine ⟨rfl, ?_, rfl⟩
  exact clamp_eq_self (by linarith) (by linarith)

/-- Witness for C6 at 30 fps: update_interval 15, missing_threshold 60,
a state at frame 15 with 50 missed frames. -/
theorem c6_missing_failsafe_witness :
    (⟨70, 60, 50, 15⟩ : FaceState).frame_idx % update_interval 30 = 0 ∧
      (50 : ℤ) ≤ 100 ∧
      missing_threshold 30 ≤ (⟨70, 60, 50, 15⟩ : FaceState).missing + update_interval 30 ∧
      ((faceStep 100 50 30 ⟨70, 60, 50, 15⟩ none).1.missing =
          (⟨70, 60, 50, 15⟩ : FaceState).missing + update_interval 30 ∧
        (faceStep 100 50 30 ⟨70, 60, 50, 15⟩ none).1.target_center = (100 : ℚ) / 2 ∧
        missing_threshold 30 = pyInt (30 * 2)) :=
  ⟨by norm_num [update_interval, pyInt],
    by norm_num,
    by norm_num [update_interval, missing_threshold, pyInt],
    c6_missing_failsafe 100 50 30 ⟨70, 60, 50, 15⟩
      (by norm_num [update_interval, pyInt]) (by norm_num)
      (by norm_num [update_interval, missing_threshold, pyInt])⟩

/-- Counterexample to C6 as stated: at fps = 2.8 the code threshold is
int(5.6) = 5, so after 5 consecutive empty update points (missing = 5) the
target center is already recentered to width / 2 = 50, while the claim
threshold round(fps * 2.0) = 6 and the claim count ceil(2.0 * fps /
update_interval) = 6 would say recentering has not happened yet. -/
theorem c6_counterexample :
    (faceRun 100 50 (14/5) [some 70, none, none, none, none]).target_center = 70 ∧
      (faceRun 100 50 (14/5) [some 70, none, none, none, none, none]).target_center = 50 ∧
      (faceRun 100 50 (14/5) [some 70, none, none, none, none, none]).missing = 5 ∧
      missing_threshold (14/5) = 5 ∧
      (5 : ℤ) < round ((14/5 : ℚ) * 2) ∧
      (5 : ℤ) < ⌈((14/5 : ℚ) * 2) / ((update_interval (14/5) : ℤ) : ℚ)⌉ := by
  refine ⟨?_, ?_, ?_, ?_, ?_, ?_⟩
  · norm_num [faceRun, faceStep, faceInit, update_interval, missing_threshold,
      smoothing, clamp, pyInt]
  · norm_num [faceRun, faceStep, faceInit, update_interval, missing_threshold,
      smoothing, clamp, pyInt]
  · norm_num [faceRun, faceStep, faceInit, update_interval, missing_threshold,
      smoothing, clamp, pyInt]
  · norm_num [missing_threshold, pyInt]
  · rw [round_eq]
    norm_num
  · norm_num [update_interval, pyInt]
    rw [Int.lt_ceil]
    norm_num

/-! ### C7: passthrough mode -/

/-- C7: when the source width is at most the computed target width, the
face planner takes the passthrough branch: zero Face Detector invocations
and one emitted frame of exactly (target_width, target_height) per decoded
frame. -/
theorem c7_passthrough (detect : ℕ → List FaceBox) (v : Video) (g : Geometry)
    (hdim : ¬(v.width < 2 ∨ v.height < 2))
    (hg : faceTargetGeometry v.width v.height = some g)
    (hpass : v.width ≤ g.targetWidth) :
    crop_face_tracking_plan detect (some v) =
        .ok ((v.frames.map fun _ => (g.targetWidth, g.targetHeight)), 0) ∧
      ∀ s ∈ (v.frames.map fun _ => (g.targetWidth, g.targetHeight)),
        s = (g.targetWidth, g.targetHeight) := by
  constructor
  · simp only [crop_face_tracking_plan, hg]
    rw [if_neg hdim, if_pos hpass]
  · intro s hs
    obtain ⟨a, -, ha⟩ := List.mem_map.mp hs
    exact ha.symm

/-- Witness for C7 with a 16 x 32 source (portrait, even width): the target
geometry is 16 x 32 and the two decoded frames pass through. -/
theorem c7_passthrough_witness :
    ¬((16 : ℤ) < 2 ∨ (32 : ℤ) < 2) ∧
      faceTargetGeometry 16 32 = some ⟨16, 32⟩ ∧
      (16 : ℤ) ≤ (16 : ℤ) ∧
      (crop_face_tracking_plan (fun _ => []) (some ⟨16, 32, 30, 2, [0, 1]⟩) =
          .ok (([0, 1].map fun _ => ((16 : ℤ), (32 : ℤ))), 0) ∧
        ∀ s ∈ ([0, 1].map fun _ => ((16 : ℤ), (32 : ℤ))), s = (16, 32)) :=
  ⟨by norm_num, by norm_num [faceTargetGeometry, pyInt], by norm_num,
    c7_passthrough (fun _ => []) ⟨16, 32, 30, 2, [0, 1]⟩ ⟨16, 32⟩
      (by norm_num) (by norm_num [faceTargetGeometry, pyInt]) (by norm_num)⟩

/-! ### C8: fully still input keeps the screen pan at zero -/

theorem screenMotionUpdate_no_sig {sw tw s : ℤ} {mag : List (List ℚ)}
    (hmag : ∀ row ∈ mag, ∀ v ∈ row, v ≤ 2) :
    screenMotionUpdate sw tw s mag = s := by
  unfold screenMotionUpdate
  rw [if_neg]
  simp only [List.any_eq_true, decide_eq_true_eq, not_exists, not_and, not_lt]
  exact hmag

theorem screenStep_keeps_zero {estimate : ℕ → ℕ → List (List ℚ)}
    {sw tw ui : ℤ} {st : ScreenState} {f : ℕ}
    (hest : ∀ p c, ∀ row ∈ estimate p c, ∀ v ∈ row, v ≤ 2)
    (h0 : st.smoothed_x = 0) :
    (screenStep estimate sw tw ui st f).smoothed_x = 0 := by
  unfold screenStep
  dsimp only
  split
  · cases hp : st.prev_gray with
    | none => simpa using h0
    | some p =>
      simp only
      rw [screenMotionUpdate_no_sig (hest p f)]
      exact h0
  · exact h0

theorem screenStates_zero_aux (estimate : ℕ → ℕ → List (List ℚ))
    (sw tw ui reported : ℤ)
    (hest : ∀ p c, ∀ row ∈ estimate p c, ∀ v ∈ row, v ≤ 2) :
    ∀ (frames : List ℕ) (st0 : ScreenState), st0.smoothed_x = 0 →
      ∀ st ∈ screenStates estimate sw tw ui reported frames st0,
        st.smoothed_x = 0 := by
  intro frames
  induction frames with
  | nil =>
    intro st0 h0 st hst
    simp [screenStates] at hst
  | cons f rest ih =>
    intro st0 h0 st hst
    simp only [screenStates] at hst
    split at hst
    · rw [List.mem_singleton.mp hst]
      exact screenStep_keeps_zero hest h0
    · rcases List.mem_cons.mp hst with h | h
      · subst h
        exact screenStep_keeps_zero hest h0
      · exact ih _ (screenStep_keeps_zero hest h0) st h

/-- C8: when no motion-field pixel ever exceeds magnitude 2.0 (in
particular for an all-zero luma sequence), smoothed_pan_x stays at its
initial value 0 at every frame of the screen-planner pass. -/
theorem c8_screen_still (estimate : ℕ → ℕ → List (List ℚ))
    (sw tw ui reported : ℤ) (frames : List ℕ)
    (hest : ∀ p c, ∀ row ∈ estimate p c, ∀ v ∈ row, v ≤ 2) :
    ∀ st ∈ screenStates estimate sw tw ui reported frames ⟨0, none, 0⟩,
      st.smoothed_x = 0 :=
  screenStates_zero_aux estimate sw tw ui reported hest frames ⟨0, none, 0⟩ rfl

/-- Witness for C8 on a three-frame run whose motion fields never exceed
magnitude 2. -/
theorem c8_screen_still_witness :
    (∀ p c, ∀ row ∈ (fun _ _ => [[2, 0], [1, 1]] : ℕ → ℕ → List (List ℚ)) p c,
      ∀ v ∈ row, v ≤ 2) ∧
      ∀ st ∈ screenStates (fun _ _ => [[2, 0], [1, 1]]) 10 2 1 0 [5, 6, 7]
          ⟨0, none, 0⟩, st.smoothed_x = 0 := by
  have hest : ∀ p c, ∀ row ∈ (fun _ _ => [[2, 0], [1, 1]] : ℕ → ℕ → List (List ℚ)) p c,
      ∀ v ∈ row, v ≤ 2 := by
    intro p c row hrow v hv
    simp only [List.mem_cons, List.not_mem_nil, or_false] at hrow
    rcases hrow with h | h <;> subst h <;>
      simp only [List.mem_cons, List.not_mem_nil, or_false] at hv <;>
      rcases hv with h | h <;> subst h <;> norm_num
  exact ⟨hest, c8_screen_still (fun _ _ => [[2, 0], [1, 1]]) 10 2 1 0 [5, 6, 7] hest⟩

/-! ### C9: the screen pan update truncates to an integer -/

theorem pyInt_abs_sub_lt_one (q : ℚ) :
    |((pyInt q : ℤ) : ℚ) - q| < 1 := by
  unfold pyInt
  split
  · rw [abs_of_nonneg (by simpa using Int.le_ceil q)]
    have := Int.ceil_lt_add_one q
    linarith
  · rw [abs_of_nonpos (by simpa using Int.floor_le q)]
    have := Int.sub_one_lt_floor q
    linarith

/-- C9 (corrected): at an update point with significant motion the new pan
is int(0.9 * smoothed_pan_x + 0.1 * target_x) — the exact low-pass value
truncated toward zero to an integer, within 1 of the exact value; the
state variable is an integer, not a float. -/
theorem c9_screen_update (sw tw s : ℤ) (mag : List (List ℚ))
    (hsig : (mag.any fun row => row.any fun p => decide (2 < p)) = true)
    (hpos : 0 < screenTotalMotion mag) :
    screenMotionUpdate sw tw s mag =
        pyInt ((9/10) * (s : ℚ) + (1/10) * ((screenTargetX sw tw mag : ℤ) : ℚ)) ∧
      |((screenMotionUpdate sw tw s mag : ℤ) : ℚ) -
          ((9/10) * (s : ℚ) + (1/10) * ((screenTargetX sw tw mag : ℤ) : ℚ))| < 1 := by
  have heq : screenMotionUpdate sw tw s mag =
      pyInt ((9/10) * (s : ℚ) + (1/10) * ((screenTargetX sw tw mag : ℤ) : ℚ)) := by
    unfold screenMotionUpdate
    rw [if_pos hsig, if_pos hpos]
  refine ⟨heq, ?_⟩
  rw [heq]
  exact pyInt_abs_sub_lt_one _

/-- Witness for C9 on a concrete field: one significant pixel of magnitude
3 in column 6 of a 10-column row, scaled width 10, target width 2. -/
theorem c9_screen_update_witness :
    (([[0, 0, 0, 0, 0, 0, 3, 0, 0, 0]] : List (List ℚ)).any fun row =>
        row.any fun p => decide (2 < p)) = true ∧
      0 < screenTotalMotion [[0, 0, 0, 0, 0, 0, 3, 0, 0, 0]] ∧
      (screenMotionUpdate 10 2 0 [[0, 0, 0, 0, 0, 0, 3, 0, 0, 0]] =
          pyInt ((9/10) * ((0 : ℤ) : ℚ) +
            (1/10) * ((screenTargetX 10 2 [[0, 0, 0, 0, 0, 0, 3, 0, 0, 0]] : ℤ) : ℚ)) ∧
        |((screenMotionUpdate 10 2 0 [[0, 0, 0, 0, 0, 0, 3, 0, 0, 0]] : ℤ) : ℚ) -
            ((9/10) * ((0 : ℤ) : ℚ) +
              (1/10) * ((screenTargetX 10 2 [[0, 0, 0, 0, 0, 0, 3, 0, 0, 0]] : ℤ) : ℚ))| < 1) := by
  have hsig : (([[0, 0, 0, 0, 0, 0, 3, 0, 0, 0]] : List (List ℚ)).any fun row =>
      row.any fun p => decide (2 < p)) = true := by
    simp only [List.any_eq_true, decide_eq_true_eq]
    exact ⟨[0, 0, 0, 0, 0, 0, 3, 0, 0, 0], by simp, 3, by norm_num, by norm_num⟩
  have hpos : 0 < screenTotalMotion [[0, 0, 0, 0, 0, 0, 3, 0, 0, 0]] := by
    norm_num [screenTotalMotion, rowMaskedSum]
  exact ⟨hsig, hpos, c9_screen_update 10 2 0 _ hsig hpos⟩

/-- Counterexample to C9 as stated: same field, previous pan 0. The exact
low-pass value is 0.9 * 0 + 0.1 * 5 = 0.5, but the code stores int(0.5) = 0,
so the new smoothed pan does not equal the exact value. -/
theorem c9_counterexample :
    screenMotionUpdate 10 2 0 [[0, 0, 0, 0, 0, 0, 3, 0, 0, 0]] = 0 ∧
      screenTargetX 10 2 [[0, 0, 0, 0, 0, 0, 3, 0, 0, 0]] = 5 ∧
      ((screenMotionUpdate 10 2 0 [[0, 0, 0, 0, 0, 0, 3, 0, 0, 0]] : ℤ) : ℚ) ≠
        (9/10) * ((0 : ℤ) : ℚ) +
          (1/10) * ((screenTargetX 10 2 [[0, 0, 0, 0, 0, 0, 3, 0, 0, 0]] : ℤ) : ℚ) := by
  have htx : screenTargetX 10 2 [[0, 0, 0, 0, 0, 0, 3, 0, 0, 0]] = 5 := by
    norm_num [screenTargetX, screenMotionX, screenTotalMotion, rowMaskedSum,
      rowWeightedSum, List.enum, List.enumFrom, pyInt, Int.fdiv]
  have hupd : screenMotionUpdate 10 2 0 [[0, 0, 0, 0, 0, 0, 3, 0, 0, 0]] = 0 := by
    have hsig : (([[0, 0, 0, 0, 0, 0, 3, 0, 0, 0]] : List (List ℚ)).any fun row =>
        row.any fun p => decide (2 < p)) = true := by
      simp only [List.any_eq_true, decide_eq_true_eq]
      exact ⟨[0, 0, 0, 0, 0, 0, 3, 0, 0, 0], by simp, 3, by norm_num, by norm_num⟩
    have hpos : 0 < screenTotalMotion [[0, 0, 0, 0, 0, 0, 3, 0, 0, 0]] := by
      norm_num [screenTotalMotion, rowMaskedSum]
    unfold screenMotionUpdate
    rw [if_pos hsig, if_pos hpos, htx]
    norm_num [pyInt]
  refine ⟨hupd, htx, ?_⟩
  rw [hupd, htx]
  norm_num

/-! ### C10: unreadable input in auto mode -/

/-- C10: when the input cannot be opened, detect_face_centers returns the
empty list instead of raising, so auto mode silently selects screen mode
and the open failure surfaces only as the screen-planner error. -/
theorem c10_unreadable_auto (detect : ℕ → List FaceBox)
    (estimate : ℕ → ℕ → List (List ℚ)) :
    detect_face_centers detect none 12 = [] ∧
      pyMain detect estimate "auto" none =
        .error "Unable to open video for screen crop." := by
  constructor
  · rfl
  · rfl

end Autoclip
